import Mathlib

/-!
Verification of the OpenVM ELF signature tooling: the binary symbol resolver
(`find_signature_bounds`), the two CLI modes (Mode A in
`src/elf-test/src/main.rs`, Mode B in `src/transpile_elf.rs`), and the
executable serializer round trip.

The Rust code is shallowly embedded: pure logic becomes Lean functions over
`Nat` (with explicit `% 2^32` where the code casts to `u32`), the external
collaborators (`object::File::parse`, `Elf::decode`, `VmExe::from_elf`, the
SDK executor, the file system) become oracle parameters returning
`Except`/`Option`, and the `main` functions become state-passing programs that
record their observable effects (environment updates, files written, events).
-/

namespace OpenVmElf

/-- `2^32`, the modulus of a Rust `u32` cast. -/
def U32MOD : Nat := 2 ^ 32

/-- One symbol-table entry as the resolver sees it: `symbol.name()` is a
`Result` in Rust (an `Err` name is modelled as `none`), and
`symbol.address()` is a 64-bit virtual address. -/
structure Symbol where
  name : Option String
  address : Nat
deriving DecidableEq, Repr

/-- The resolver's scan loop over `obj.symbols()`: each match on
`begin_signature` or `end_signature` overwrites the accumulator with
`symbol.address() as u32`; entries whose name is `Err` are skipped. -/
def scanSymbols : List Symbol → Option Nat → Option Nat → Option Nat × Option Nat
  | [], b, e => (b, e)
  | s :: rest, b, e =>
    match s.name with
    | some n =>
      if n = "begin_signature" then scanSymbols rest (some (s.address % U32MOD)) e
      else if n = "end_signature" then scanSymbols rest b (some (s.address % U32MOD))
      else scanSymbols rest b e
    | none => scanSymbols rest b e

/-- `find_signature_bounds` from `src/elf-test/src/main.rs`.  The argument is
the outcome of `object::File::parse(elf_data).ok()` (so `none` models a parse
failure, on which the function returns `None` via `?`).  After the scan the
pair is returned only when both addresses were recorded and `begin < end`. -/
def find_signature_bounds (parsed : Option (List Symbol)) : Option (Nat × Nat) :=
  match parsed with
  | none => none
  | some syms =>
    match scanSymbols syms none none with
    | (some b, some e) => if b < e then some (b, e) else none
    | _ => none

/-- A symbol with the given name is present in the table. -/
def hasSym (syms : List Symbol) (nm : String) : Bool :=
  syms.any fun s => s.name = some nm

/-- The truncated (`as u32`) address of the LAST symbol with the given name:
a later occurrence overrides an earlier one, mirroring how the scan loop
overwrites its accumulator. -/
def lastAddr : List Symbol → String → Option Nat
  | [], _ => none
  | s :: rest, nm =>
    (lastAddr rest nm).or (if s.name = some nm then some (s.address % U32MOD) else none)

/-- The truncated address of the FIRST symbol with the given name — the value
the specification says the resolver records. -/
def firstAddr : List Symbol → String → Option Nat
  | [], _ => none
  | s :: rest, nm =>
    if s.name = some nm then some (s.address % U32MOD) else firstAddr rest nm

lemma scanSymbols_fst (syms : List Symbol) (b e : Option Nat) :
    (scanSymbols syms b e).1 = (lastAddr syms "begin_signature").or b := by
  induction syms generalizing b e with
  | nil => rfl
  | cons s rest ih =>
    rcases hn : s.name with _ | n
    · simp [scanSymbols, lastAddr, hn, ih]
    · by_cases hb : n = "begin_signature"
      · subst hb
        simp [scanSymbols, hn, ih, lastAddr, Option.or_assoc, Option.or_some]
      · by_cases he : n = "end_signature"
        · subst he
          simp [scanSymbols, hn, hb, ih, lastAddr, Option.or_none]
        · simp [scanSymbols, hn, hb, he, ih, lastAddr, Option.or_none]

lemma scanSymbols_snd (syms : List Symbol) (b e : Option Nat) :
    (scanSymbols syms b e).2 = (lastAddr syms "end_signature").or e := by
  induction syms generalizing b e with
  | nil => rfl
  | cons s rest ih =>
    rcases hn : s.name with _ | n
    · simp [scanSymbols, lastAddr, hn, ih]
    · by_cases hb : n = "begin_signature"
      · subst hb
        simp [scanSymbols, hn, ih, lastAddr, Option.or_none]
      · by_cases he : n = "end_signature"
        · subst he
          simp [scanSymbols, hn, hb, ih, lastAddr, Option.or_assoc, Option.or_some]
        · simp [scanSymbols, hn, hb, he, ih, lastAddr, Option.or_none]

lemma scanSymbols_eq (syms : List Symbol) :
    scanSymbols syms none none =
      (lastAddr syms "begin_signature", lastAddr syms "end_signature") := by
  have h1 := scanSymbols_fst syms none none
  have h2 := scanSymbols_snd syms none none
  rcases hs : scanSymbols syms none none with ⟨x, y⟩
  rw [hs] at h1 h2
  simp only [Option.or_none] at h1 h2
  simp [h1, h2]

lemma lastAddr_isSome_iff (syms : List Symbol) (nm : String) :
    (lastAddr syms nm).isSome ↔ hasSym syms nm = true := by
  induction syms with
  | nil => simp [lastAddr, hasSym]
  | cons s rest ih =>
    by_cases hn : s.name = some nm
    · simp [lastAddr, hasSym, Option.isSome_or, hn]
    · simp only [lastAddr, Option.isSome_or, if_neg hn, Option.isSome_none, Bool.or_false]
      rw [ih]
      simp [hasSym, List.any_cons, hn]

/-- Observable pipeline events of a `main` run, recorded in program order. -/
inductive Event where
  | readFile (path : String)
  | decodeElf (base : Nat)
  | transpile
  | execute
  | executeWithSignature (sigPath : String)
  | writeExeFile (path : String)
deriving DecidableEq, Repr

/-- How a `main` run terminates: `usageExit` models `std::process::exit`,
`panicked` models a `.expect` panic, `propagatedError` models the `?`
operator making `main` return `Err`. -/
inductive RunExit where
  | usageExit (code : Nat)
  | panicked (msg : String)
  | propagatedError (msg : String)
  | success
deriving DecidableEq, Repr

/-- `std::env::set_var`: the most recent binding for a key shadows older
ones (lookup takes the first hit). -/
def setVar (k v : String) (env : List (String × String)) : List (String × String) :=
  (k, v) :: env

/-- `std::env::var`: the current value of a key, `none` when unset. -/
def getVar (env : List (String × String)) (k : String) : Option String :=
  (env.find? fun p => p.1 = k).map Prod.snd

/-- External collaborators called by Mode A (`src/elf-test/src/main.rs`):
`fs::read`, `object::File::parse(..).ok()` composed with `obj.symbols()`,
`Elf::decode`, `VmExe::from_elf`, `sdk.execute`, `sdk.execute_with_signature`.
`Image` and `Exe` are the opaque payload types they exchange. -/
structure ExternalsA (Image Exe : Type) where
  readFile : String → Except String (List Nat)
  parseElf : List Nat → Option (List Symbol)
  decode : List Nat → Nat → Except String Image
  fromElf : Image → Except String Exe
  execute : Exe → Except String Unit
  executeWithSignature : Exe → String → Except String Unit

/-- Everything observable about a Mode A run. -/
structure ModeAOut where
  exit : RunExit
  env : List (String × String)
  stderr : List String
  filesWritten : List String
  events : List Event
deriving DecidableEq, Repr

/-- The base address Mode A passes to `Elf::decode`. -/
def MODE_A_BASE : Nat := 0x80000000

/-- The base address Mode B passes to `Elf::decode`. -/
def MODE_B_BASE : Nat := 0x20000000

/-- `main` of `src/elf-test/src/main.rs` (Mode A), as a function of the
argument vector (index 0 is the program name), the initial process
environment and the external collaborators. -/
def modeA {Image Exe : Type} (ext : ExternalsA Image Exe) (args : List String)
    (env0 : List (String × String)) : ModeAOut :=
  if args.length < 2 then
    { exit := .usageExit 1, env := env0,
      stderr := ["Usage: " ++ args.getD 0 "" ++ " <elf-file> [signature-output]"],
      filesWritten := [], events := [] }
  else
    let elfPath := args.getD 1 ""
    let sigPath := args[2]?
    match ext.readFile elfPath with
    | .error msg =>
        { exit := .propagatedError msg, env := env0, stderr := [],
          filesWritten := [], events := [.readFile elfPath] }
    | .ok elfData =>
      match find_signature_bounds (ext.parseElf elfData) with
      | none =>
          { exit := .panicked "Failed to find begin_signature/end_signature symbols in ELF",
            env := env0, stderr := [], filesWritten := [],
            events := [.readFile elfPath] }
      | some (b, e) =>
        let size := e - b
        let env1 := setVar "RISC0_SIG_SIZE" (toString size)
          (setVar "RISC0_SIG_BEGIN_ADDR" (toString b) env0)
        match ext.decode elfData MODE_A_BASE with
        | .error msg =>
            { exit := .propagatedError msg, env := env1, stderr := [], filesWritten := [],
              events := [.readFile elfPath, .decodeElf MODE_A_BASE] }
        | .ok img =>
          match ext.fromElf img with
          | .error msg =>
              { exit := .propagatedError msg, env := env1, stderr := [], filesWritten := [],
                events := [.readFile elfPath, .decodeElf MODE_A_BASE, .transpile] }
          | .ok exe =>
            match sigPath with
            | some sp =>
              match ext.executeWithSignature exe sp with
              | .error msg =>
                  { exit := .propagatedError msg, env := env1, stderr := [],
                    filesWritten := [],
                    events := [.readFile elfPath, .decodeElf MODE_A_BASE, .transpile,
                      .executeWithSignature sp] }
              | .ok _ =>
                  { exit := .success, env := env1, stderr := [], filesWritten := [sp],
                    events := [.readFile elfPath, .decodeElf MODE_A_BASE, .transpile,
                      .executeWithSignature sp] }
            | none =>
              match ext.execute exe with
              | .error msg =>
                  { exit := .propagatedError msg, env := env1, stderr := [],
                    filesWritten := [],
                    events := [.readFile elfPath, .decodeElf MODE_A_BASE, .transpile, .execute] }
              | .ok _ =>
                  { exit := .success, env := env1, stderr := [], filesWritten := [],
                    events := [.readFile elfPath, .decodeElf MODE_A_BASE, .transpile, .execute] }

/-- External collaborators called by Mode B (`src/transpile_elf.rs`):
`fs::read`, `Elf::decode`, `VmExe::from_elf`, `write_exe_to_file`. -/
structure ExternalsB (Image Exe : Type) where
  readFile : String → Except String (List Nat)
  decode : List Nat → Nat → Except String Image
  fromElf : Image → Except String Exe
  writeExe : Exe → String → Except String Unit

/-- Everything observable about a Mode B run. -/
structure ModeBOut where
  exit : RunExit
  stderr : List String
  filesWritten : List String
  events : List Event
deriving DecidableEq, Repr

/-- `main` of `src/transpile_elf.rs` (Mode B). -/
def modeB {Image Exe : Type} (ext : ExternalsB Image Exe) (args : List String) : ModeBOut :=
  if args.length ≠ 2 then
    { exit := .usageExit 1,
      stderr := ["Usage: " ++ args.getD 0 "" ++ " <elf-file>", "Outputs: <elf-file>.vmexe"],
      filesWritten := [], events := [] }
  else
    let elfPath := args.getD 1 ""
    let vmexePath := elfPath ++ ".vmexe"
    match ext.readFile elfPath with
    | .error msg =>
        { exit := .propagatedError msg, stderr := [], filesWritten := [],
          events := [.readFile elfPath] }
    | .ok elfData =>
      match ext.decode elfData MODE_B_BASE with
      | .error msg =>
          { exit := .propagatedError msg, stderr := [], filesWritten := [],
            events := [.readFile elfPath, .decodeElf MODE_B_BASE] }
      | .ok img =>
        match ext.fromElf img with
        | .error msg =>
            { exit := .propagatedError msg, stderr := [], filesWritten := [],
              events := [.readFile elfPath, .decodeElf MODE_B_BASE, .transpile] }
        | .ok exe =>
          match ext.writeExe exe vmexePath with
          | .error msg =>
              { exit := .propagatedError msg, stderr := [], filesWritten := [],
                events := [.readFile elfPath, .decodeElf MODE_B_BASE, .transpile,
                  .writeExeFile vmexePath] }
          | .ok _ =>
              { exit := .success, stderr := [], filesWritten := [vmexePath],
                events := [.readFile elfPath, .decodeElf MODE_B_BASE, .transpile,
                  .writeExeFile vmexePath] }

/-- One target-ISA instruction of a transpiled executable: an opcode with its
operand list. -/
structure VmInstruction where
  opcode : Nat
  operands : List Nat
deriving DecidableEq, Repr

/-- A transpiled executable: target-ISA instruction sequence, static data
(address/word pairs) and entry point — the unit persisted as `.vmexe`. -/
structure TranspiledExecutable where
  instructions : List VmInstruction
  data : List (Nat × Nat)
  entry : Nat
deriving DecidableEq, Repr

/-- Length-prefixed encoding of one instruction. -/
def encodeInstruction (i : VmInstruction) : List Nat :=
  i.opcode :: i.operands.length :: i.operands

/-- Encoding of one static-data address/word pair. -/
def encodePair (p : Nat × Nat) : List Nat :=
  [p.1, p.2]

/-- Modelled from the spec: the Executable Serializer (`write_exe_to_file` in
`openvm_sdk::fs` and its loader) is repository code not present under `src/`;
§4.4 specifies `save` as persisting a TranspiledExecutable (instructions +
static data + entry point) to a stable byte encoding. -/
def save (x : TranspiledExecutable) : List Nat :=
  [x.entry, x.instructions.length] ++ x.instructions.flatMap encodeInstruction ++
    [x.data.length] ++ x.data.flatMap encodePair

/-- Consume exactly `n` words from the front of the stream. -/
def takeExact : Nat → List Nat → Option (List Nat × List Nat)
  | 0, bs => some ([], bs)
  | _ + 1, [] => none
  | n + 1, b :: bs => (takeExact n bs).map fun pr => (b :: pr.1, pr.2)

/-- Decode one length-prefixed instruction from the front of the stream. -/
def decodeInstruction : List Nat → Option (VmInstruction × List Nat)
  | op :: k :: bs => (takeExact k bs).map fun pr => (⟨op, pr.1⟩, pr.2)
  | _ => none

/-- Decode one static-data pair from the front of the stream. -/
def decodePair : List Nat → Option ((Nat × Nat) × List Nat)
  | a :: b :: bs => some ((a, b), bs)
  | _ => none

/-- Decode `n` consecutive items with the given item decoder. -/
def decodeCount {α : Type} (dec : List Nat → Option (α × List Nat)) :
    Nat → List Nat → Option (List α × List Nat)
  | 0, bs => some ([], bs)
  | n + 1, bs =>
    match dec bs with
    | none => none
    | some (a, rest) => (decodeCount dec n rest).map fun pr => (a :: pr.1, pr.2)

/-- Modelled from the spec: `load` reads back the §4.4 stable encoding,
rejecting any stream that is not exactly one serialized TranspiledExecutable. -/
def load (bs : List Nat) : Option TranspiledExecutable :=
  match bs with
  | entry :: ni :: rest =>
    match decodeCount decodeInstruction ni rest with
    | none => none
    | some (instrs, rest2) =>
      match rest2 with
      | nd :: rest3 =>
        match decodeCount decodePair nd rest3 with
        | some (pairs, []) => some ⟨instrs, pairs, entry⟩
        | _ => none
      | [] => none
  | _ => none

lemma takeExact_append (xs rest : List Nat) :
    takeExact xs.length (xs ++ rest) = some (xs, rest) := by
  induction xs with
  | nil => rfl
  | cons x xs ih => simp [takeExact, ih]

lemma decodeInstruction_encode (i : VmInstruction) (rest : List Nat) :
    decodeInstruction (encodeInstruction i ++ rest) = some (i, rest) := by
  simp [encodeInstruction, decodeInstruction, takeExact_append]

lemma decodePair_encode (p : Nat × Nat) (rest : List Nat) :
    decodePair (encodePair p ++ rest) = some (p, rest) := by
  simp [encodePair, decodePair]

lemma decodeCount_encode {α : Type} (dec : List Nat → Option (α × List Nat))
    (enc : α → List Nat) (h : ∀ a rest, dec (enc a ++ rest) = some (a, rest))
    (as : List α) (rest : List Nat) :
    decodeCount dec as.length (as.flatMap enc ++ rest) = some (as, rest) := by
  induction as with
  | nil => rfl
  | cons a as ih =>
    simp only [List.flatMap_cons, List.length_cons, List.append_assoc, decodeCount, h, ih]
    rfl

/-- A well-formed fixture: both sentinel symbols, `begin < end`
(Scenario 1 of the spec). -/
def sigSyms : List Symbol :=
  [⟨some "begin_signature", 0x1000⟩, ⟨some "end_signature", 0x1040⟩]

/-- A fixture with a duplicated `begin_signature`: first occurrence at
`0x1000`, second at `0x2000`. -/
def dupSyms : List Symbol :=
  [⟨some "begin_signature", 0x1000⟩, ⟨some "begin_signature", 0x2000⟩,
   ⟨some "end_signature", 0x3000⟩]

/-- Claim C1: `find_signature_bounds` returns a pair exactly when both
sentinel symbols are present in the symbol table and the recorded begin
address is below the recorded end address, the returned pair being those
recorded addresses; in every other case, including a failed ELF parse
(`none` input), it returns absence. -/
theorem find_signature_bounds_iff :
    (∀ (syms : List Symbol) (b e : Nat),
      find_signature_bounds (some syms) = some (b, e) ↔
        (hasSym syms "begin_signature" = true ∧ hasSym syms "end_signature" = true ∧
         lastAddr syms "begin_signature" = some b ∧ lastAddr syms "end_signature" = some e ∧
         b < e)) ∧
    find_signature_bounds none = none := by
  refine ⟨fun syms b e => ?_, rfl⟩
  have hiff := fun nm => lastAddr_isSome_iff syms nm
  simp only [find_signature_bounds, scanSymbols_eq]
  rcases hB : lastAddr syms "begin_signature" with _ | x
  · simp [hB]
  · rcases hE : lastAddr syms "end_signature" with _ | y
    · simp [hE]
    · have hsB : hasSym syms "begin_signature" = true := by
        rw [← hiff "begin_signature", hB]; rfl
      have hsE : hasSym syms "end_signature" = true := by
        rw [← hiff "end_signature", hE]; rfl
      by_cases hlt : x < y
      · simp only [if_pos hlt, Option.some.injEq, Prod.mk.injEq, hsB, hsE, true_and]
        constructor
        · rintro ⟨rfl, rfl⟩; exact ⟨rfl, rfl, hlt⟩
        · rintro ⟨hb, he, _⟩
          exact ⟨hb, he⟩
      · simp only [if_neg hlt, hsB, hsE, true_and]
        constructor
        · rintro h; cases h
        · rintro ⟨hb, he, hlt'⟩
          cases Option.some.inj hb
          cases Option.some.inj he
          exact absurd hlt' hlt

/-- Claim C2, counterexample: on a table with two `begin_signature` symbols
(first at `0x1000`, second at `0x2000`) the resolver returns the SECOND
occurrence's address, not the first as the claim states. -/
theorem first_wins_counterexample :
    firstAddr dupSyms "begin_signature" = some 0x1000 ∧
    find_signature_bounds (some dupSyms) = some (0x2000, 0x3000) := by
  constructor <;> rfl

/-- Claim C2, amended: with duplicated sentinel names, the scan records the
truncated address of the LAST occurrence of each name, and the resolver's
output is built from those last-occurrence addresses. -/
theorem last_occurrence_wins (syms : List Symbol) (b e : Nat)
    (hB : lastAddr syms "begin_signature" = some b)
    (hE : lastAddr syms "end_signature" = some e) :
    scanSymbols syms none none = (some b, some e) ∧
    find_signature_bounds (some syms) = if b < e then some (b, e) else none := by
  refine ⟨by rw [scanSymbols_eq, hB, hE], ?_⟩
  simp [find_signature_bounds, scanSymbols_eq, hB, hE]

/-- Witness for `last_occurrence_wins` at the duplicate fixture. -/
theorem last_occurrence_wins_witness :
    scanSymbols dupSyms none none = (some 0x2000, some 0x3000) ∧
    find_signature_bounds (some dupSyms) =
      if (0x2000 : Nat) < 0x3000 then some (0x2000, 0x3000) else none :=
  last_occurrence_wins dupSyms 0x2000 0x3000 rfl rfl

/-- Replace a symbol's 64-bit address by its low 32 bits. -/
def truncSym (s : Symbol) : Symbol :=
  ⟨s.name, s.address % U32MOD⟩

lemma lastAddr_map_truncSym (syms : List Symbol) (nm : String) :
    lastAddr (syms.map truncSym) nm = lastAddr syms nm := by
  induction syms with
  | nil => rfl
  | cons s rest ih => simp [lastAddr, truncSym, ih, Nat.mod_mod_of_dvd _ dvd_rfl]

lemma lastAddr_lt (syms : List Symbol) (nm : String) (x : Nat)
    (h : lastAddr syms nm = some x) : x < U32MOD := by
  induction syms with
  | nil => cases h
  | cons s rest ih =>
    simp only [lastAddr] at h
    rcases hr : lastAddr rest nm with _ | y
    · rw [hr, Option.none_or] at h
      by_cases hn : s.name = some nm
      · rw [if_pos hn] at h
        cases Option.some.inj h
        exact Nat.mod_lt _ (by norm_num [U32MOD])
      · rw [if_neg hn] at h; cases h
    · rw [hr, Option.or_some] at h
      cases Option.some.inj h
      exact ih hr

/-- Claim C9: the resolver is computed over `u32`-truncated addresses: it
cannot distinguish symbol tables whose addresses agree modulo `2^32`, and
any returned pair consists of values below `2^32`. -/
theorem find_signature_bounds_truncates (syms : List Symbol) :
    find_signature_bounds (some (syms.map truncSym)) = find_signature_bounds (some syms) ∧
    ∀ b e, find_signature_bounds (some syms) = some (b, e) → b < U32MOD ∧ e < U32MOD := by
  constructor
  · simp [find_signature_bounds, scanSymbols_eq, lastAddr_map_truncSym]
  · intro b e h
    simp only [find_signature_bounds, scanSymbols_eq] at h
    split at h
    · split at h
      · rename_i x y hPair hlt
        rw [Prod.mk.injEq] at hPair
        rw [Option.some.injEq, Prod.mk.injEq] at h
        obtain ⟨rfl, rfl⟩ := h
        exact ⟨lastAddr_lt _ _ _ hPair.1, lastAddr_lt _ _ _ hPair.2⟩
      · cases h
    · cases h

/-- Witness for `find_signature_bounds_truncates`: the inner implication
discharged at the Scenario 1 fixture. -/
theorem find_signature_bounds_truncates_witness :
    (0x1000 : Nat) < U32MOD ∧ (0x1040 : Nat) < U32MOD :=
  (find_signature_bounds_truncates sigSyms).2 0x1000 0x1040 rfl

/-- Claim C6: serializer round trip — deserializing the stream produced by
serializing any TranspiledExecutable yields a structurally equal value:
`load (save x) = some x`. -/
theorem load_save_roundtrip (x : TranspiledExecutable) : load (save x) = some x := by
  have hinstr := decodeCount_encode decodeInstruction encodeInstruction
    decodeInstruction_encode x.instructions
    ([x.data.length] ++ x.data.flatMap encodePair)
  have hdata := decodeCount_encode decodePair encodePair decodePair_encode x.data []
  simp only [save, List.append_assoc, List.cons_append, List.nil_append, load]
  rw [show x.instructions.flatMap encodeInstruction ++
        (x.data.length :: x.data.flatMap encodePair) =
      x.instructions.flatMap encodeInstruction ++
        ([x.data.length] ++ x.data.flatMap encodePair) from rfl]
  rw [hinstr]
  simp only [List.append_nil] at hdata
  simp [hdata]

/-- Fully successful external collaborators for Mode A, over trivial opaque
payloads, with the Scenario 1 symbol table. -/
def happyExtA : ExternalsA Unit Unit where
  readFile := fun _ => .ok []
  parseElf := fun _ => some sigSyms
  decode := fun _ _ => .ok ()
  fromElf := fun _ => .ok ()
  execute := fun _ => .ok ()
  executeWithSignature := fun _ _ => .ok ()

/-- Mode A collaborators whose ELF lacks `end_signature`. -/
def noEndExtA : ExternalsA Unit Unit where
  readFile := fun _ => .ok []
  parseElf := fun _ => some [⟨some "begin_signature", 0x1000⟩]
  decode := fun _ _ => .ok ()
  fromElf := fun _ => .ok ()
  execute := fun _ => .ok ()
  executeWithSignature := fun _ _ => .ok ()

/-- Fully successful external collaborators for Mode B. -/
def happyExtB : ExternalsB Unit Unit where
  readFile := fun _ => .ok []
  decode := fun _ _ => .ok ()
  fromElf := fun _ => .ok ()
  writeExe := fun _ _ => .ok ()

/-- Claim C3, counterexample: a successful Mode A run starting from an empty
process environment ends with `RISC0_SIG_BEGIN_ADDR` and `RISC0_SIG_SIZE`
set — the environment is NOT left unchanged, and the bounds travel to the
execution stage through it. -/
theorem modeA_env_counterexample :
    (modeA happyExtA ["elf-test", "prog.elf"] []).exit = RunExit.success ∧
    getVar [] "RISC0_SIG_BEGIN_ADDR" = none ∧
    getVar (modeA happyExtA ["elf-test", "prog.elf"] []).env "RISC0_SIG_BEGIN_ADDR" =
      some "4096" ∧
    getVar (modeA happyExtA ["elf-test", "prog.elf"] []).env "RISC0_SIG_SIZE" =
      some "64" ∧
    (modeA happyExtA ["elf-test", "prog.elf"] []).env ≠ [] := by
  refine ⟨rfl, rfl, rfl, rfl, ?_⟩
  intro h
  have henv : (modeA happyExtA ["elf-test", "prog.elf"] []).env =
      [("RISC0_SIG_SIZE", "64"), ("RISC0_SIG_BEGIN_ADDR", "4096")] := rfl
  cases henv.symm.trans h

lemma modeA_env_after {Image Exe : Type} (ext : ExternalsA Image Exe)
    (args : List String) (env0 : List (String × String)) (elfData : List Nat) (b e : Nat)
    (hlen : ¬args.length < 2)
    (hread : ext.readFile (args.getD 1 "") = .ok elfData)
    (hfsb : find_signature_bounds (ext.parseElf elfData) = some (b, e)) :
    (modeA ext args env0).env =
      setVar "RISC0_SIG_SIZE" (toString (e - b))
        (setVar "RISC0_SIG_BEGIN_ADDR" (toString b) env0) := by
  simp only [modeA, if_neg hlen, hread, hfsb]
  split
  · rfl
  · split
    · rfl
    · split
      · split <;> rfl
      · split <;> rfl

/-- Claim C3, amended: whenever Mode A resolves the signature region, it
communicates the bounds to the later stages by mutating the process-wide
environment — it sets `RISC0_SIG_BEGIN_ADDR` to the begin address and
`RISC0_SIG_SIZE` to the region size, so the environment does change. -/
theorem modeA_sets_env {Image Exe : Type} (ext : ExternalsA Image Exe)
    (args : List String) (env0 : List (String × String)) (elfData : List Nat) (b e : Nat)
    (hlen : ¬args.length < 2)
    (hread : ext.readFile (args.getD 1 "") = .ok elfData)
    (hfsb : find_signature_bounds (ext.parseElf elfData) = some (b, e)) :
    getVar (modeA ext args env0).env "RISC0_SIG_BEGIN_ADDR" = some (toString b) ∧
    getVar (modeA ext args env0).env "RISC0_SIG_SIZE" = some (toString (e - b)) := by
  rw [modeA_env_after ext args env0 elfData b e hlen hread hfsb]
  constructor <;> simp [getVar, setVar]

/-- Witness for `modeA_sets_env` on the Scenario 1 run. -/
theorem modeA_sets_env_witness :
    getVar (modeA happyExtA ["elf-test", "prog.elf"] []).env "RISC0_SIG_BEGIN_ADDR" =
      some (toString (0x1000 : Nat)) ∧
    getVar (modeA happyExtA ["elf-test", "prog.elf"] []).env "RISC0_SIG_SIZE" =
      some (toString (0x1040 - 0x1000 : Nat)) :=
  modeA_sets_env happyExtA ["elf-test", "prog.elf"] [] [] 0x1000 0x1040
    (by decide) rfl rfl

/-- Claim C4: every `Elf::decode` call issued by Mode A uses base address
`0x8000_0000`, and every one issued by Mode B uses base address
`0x2000_0000`. -/
theorem decode_base_addresses :
    (∀ (Image Exe : Type) (ext : ExternalsA Image Exe) (args : List String)
        (env0 : List (String × String)) (base : Nat),
      Event.decodeElf base ∈ (modeA ext args env0).events → base = 0x80000000) ∧
    (∀ (Image Exe : Type) (ext : ExternalsB Image Exe) (args : List String) (base : Nat),
      Event.decodeElf base ∈ (modeB ext args).events → base = 0x20000000) := by
  constructor
  · intro Image Exe ext args env0 base h
    simp only [modeA] at h
    repeat' split at h
    all_goals simp_all
    all_goals rfl
  · intro Image Exe ext args base h
    simp only [modeB] at h
    repeat' split at h
    all_goals simp_all
    all_goals rfl

/-- Witness for `decode_base_addresses`: both membership hypotheses
discharged on concrete happy-path runs. -/
theorem decode_base_addresses_witness :
    MODE_A_BASE = 0x80000000 ∧ MODE_B_BASE = 0x20000000 :=
  ⟨decode_base_addresses.1 Unit Unit happyExtA ["elf-test", "prog.elf"] [] MODE_A_BASE
      (by decide),
   decode_base_addresses.2 Unit Unit happyExtB ["transpile", "prog.elf"] MODE_B_BASE
      (by decide)⟩

/-- Claim C5: when the signature region is unresolvable, Mode A panics
before decoding, transpiling or executing — its only event is the ELF read —
and it writes no file. -/
theorem modeA_aborts_when_unresolvable {Image Exe : Type} (ext : ExternalsA Image Exe)
    (args : List String) (env0 : List (String × String)) (elfData : List Nat)
    (hlen : ¬args.length < 2)
    (hread : ext.readFile (args.getD 1 "") = .ok elfData)
    (hfsb : find_signature_bounds (ext.parseElf elfData) = none) :
    (modeA ext args env0).exit =
      RunExit.panicked "Failed to find begin_signature/end_signature symbols in ELF" ∧
    (modeA ext args env0).filesWritten = [] ∧
    (modeA ext args env0).events = [Event.readFile (args.getD 1 "")] ∧
    (∀ base, Event.decodeElf base ∉ (modeA ext args env0).events) ∧
    Event.transpile ∉ (modeA ext args env0).events ∧
    Event.execute ∉ (modeA ext args env0).events ∧
    (∀ sp, Event.executeWithSignature sp ∉ (modeA ext args env0).events) := by
  have key : modeA ext args env0 =
      { exit := .panicked "Failed to find begin_signature/end_signature symbols in ELF",
        env := env0, stderr := [], filesWritten := [],
        events := [Event.readFile (args.getD 1 "")] } := by
    simp only [modeA, if_neg hlen, hread, hfsb]
  rw [key]
  refine ⟨rfl, rfl, rfl, ?_, ?_, ?_, ?_⟩ <;> simp

/-- Witness for `modeA_aborts_when_unresolvable` on an ELF whose symbol
table lacks `end_signature`. -/
theorem modeA_aborts_when_unresolvable_witness :
    (modeA noEndExtA ["elf-test", "prog.elf"] []).exit =
      RunExit.panicked "Failed to find begin_signature/end_signature symbols in ELF" ∧
    (modeA noEndExtA ["elf-test", "prog.elf"] []).filesWritten = [] ∧
    (modeA noEndExtA ["elf-test", "prog.elf"] []).events =
      [Event.readFile (["elf-test", "prog.elf"].getD 1 "")] ∧
    (∀ base, Event.decodeElf base ∉ (modeA noEndExtA ["elf-test", "prog.elf"] []).events) ∧
    Event.transpile ∉ (modeA noEndExtA ["elf-test", "prog.elf"] []).events ∧
    Event.execute ∉ (modeA noEndExtA ["elf-test", "prog.elf"] []).events ∧
    (∀ sp, Event.executeWithSignature sp ∉
      (modeA noEndExtA ["elf-test", "prog.elf"] []).events) :=
  modeA_aborts_when_unresolvable noEndExtA ["elf-test", "prog.elf"] [] []
    (by decide) rfl rfl

/-- Claim C7: on argument vector `[name, p]`, Mode B only ever writes the
single file `p ++ ".vmexe"`: on a successful run exactly that file, and in
every run nothing else. -/
theorem modeB_output_path {Image Exe : Type} (ext : ExternalsB Image Exe) (a0 p : String) :
    ((modeB ext [a0, p]).exit = RunExit.success →
      (modeB ext [a0, p]).filesWritten = [p ++ ".vmexe"]) ∧
    ((modeB ext [a0, p]).filesWritten = [] ∨
      (modeB ext [a0, p]).filesWritten = [p ++ ".vmexe"]) := by
  simp only [modeB]
  repeat' split
  all_goals simp_all

/-- Witness for `modeB_output_path`: the success-path implication discharged
on a concrete happy run. -/
theorem modeB_output_path_witness :
    (modeB happyExtB ["transpile", "prog.elf"]).filesWritten = ["prog.elf" ++ ".vmexe"] :=
  (modeB_output_path happyExtB "transpile" "prog.elf").1 rfl

/-- Claim C8: called with a wrong argument count (Mode A fewer than two
argv entries, Mode B any count other than two), each mode exits with status
code 1, leaves a usage message on stderr, and performs no event at all — in
particular it reads no file. -/
theorem usage_exit_on_bad_argc :
    (∀ (Image Exe : Type) (ext : ExternalsA Image Exe) (args : List String)
        (env0 : List (String × String)), args.length < 2 →
      (modeA ext args env0).exit = RunExit.usageExit 1 ∧
      (modeA ext args env0).stderr ≠ [] ∧
      (modeA ext args env0).events = []) ∧
    (∀ (Image Exe : Type) (ext : ExternalsB Image Exe) (args : List String),
        args.length ≠ 2 →
      (modeB ext args).exit = RunExit.usageExit 1 ∧
      (modeB ext args).stderr ≠ [] ∧
      (modeB ext args).events = []) := by
  refine ⟨fun Image Exe ext args env0 h => ?_, fun Image Exe ext args h => ?_⟩
  · simp [modeA, if_pos h]
  · simp [modeB, if_pos h]

/-- Witness for `usage_exit_on_bad_argc` on one-element argument vectors. -/
theorem usage_exit_on_bad_argc_witness :
    ((modeA happyExtA ["elf-test"] []).exit = RunExit.usageExit 1 ∧
      (modeA happyExtA ["elf-test"] []).stderr ≠ [] ∧
      (modeA happyExtA ["elf-test"] []).events = []) ∧
    ((modeB happyExtB ["transpile"]).exit = RunExit.usageExit 1 ∧
      (modeB happyExtB ["transpile"]).stderr ≠ [] ∧
      (modeB happyExtB ["transpile"]).events = []) :=
  ⟨usage_exit_on_bad_argc.1 Unit Unit happyExtA ["elf-test"] [] (by decide),
   usage_exit_on_bad_argc.2 Unit Unit happyExtB ["transpile"] (by decide)⟩

/-- Claim C10: with three or more argv entries, Mode A never takes the usage
exit; argv entry 1 is the ELF path it reads, argv entry 2 is the signature
output path handed to the executor, and entries beyond index 2 are ignored
(the run only depends on the first three entries). -/
theorem modeA_ignores_extra_args {Image Exe : Type} (ext : ExternalsA Image Exe)
    (args : List String) (env0 : List (String × String)) (hlen : 3 ≤ args.length) :
    (∀ c, (modeA ext args env0).exit ≠ RunExit.usageExit c) ∧
    (modeA ext args env0).events.head? = some (Event.readFile (args.getD 1 "")) ∧
    (∀ sp, Event.executeWithSignature sp ∈ (modeA ext args env0).events →
      args[2]? = some sp) ∧
    modeA ext args env0 = modeA ext (args.take 3) env0 := by
  have hlen2 : ¬args.length < 2 := by omega
  refine ⟨?_, ?_, ?_, ?_⟩
  · intro c h
    simp only [modeA, if_neg hlen2] at h
    repeat' split at h
    all_goals simp_all
  · simp only [modeA, if_neg hlen2]
    repeat' split
    all_goals rfl
  · intro sp h
    simp only [modeA, if_neg hlen2] at h
    repeat' split at h
    all_goals simp_all
  · have hgate : ¬(args.take 3).length < 2 := by
      rw [List.length_take]; omega
    have hg1 : (args.take 3).getD 1 "" = args.getD 1 "" := by
      simp [List.getD_eq_getElem?_getD, List.getElem?_take]
    have hg2 : (args.take 3)[2]? = args[2]? := by
      simp [List.getElem?_take]
    simp only [modeA, if_neg hlen2, if_neg hgate, hg1, hg2]

/-- Witness for `modeA_ignores_extra_args` on a four-entry argument
vector. -/
theorem modeA_ignores_extra_args_witness :
    (∀ c, (modeA happyExtA ["elf-test", "prog.elf", "sig.out", "extra"] []).exit ≠
      RunExit.usageExit c) ∧
    (modeA happyExtA ["elf-test", "prog.elf", "sig.out", "extra"] []).events.head? =
      some (Event.readFile (["elf-test", "prog.elf", "sig.out", "extra"].getD 1 "")) ∧
    (∀ sp, Event.executeWithSignature sp ∈
        (modeA happyExtA ["elf-test", "prog.elf", "sig.out", "extra"] []).events →
      ["elf-test", "prog.elf", "sig.out", "extra"][2]? = some sp) ∧
    modeA happyExtA ["elf-test", "prog.elf", "sig.out", "extra"] [] =
      modeA happyExtA (["elf-test", "prog.elf", "sig.out", "extra"].take 3) [] :=
  modeA_ignores_extra_args happyExtA ["elf-test", "prog.elf", "sig.out", "extra"] []
    (by decide)

end OpenVmElf
